import Mathlib

/-!
Shallow embedding of `src/python/backend-utils/src/backend_utils/polling.py`.

Conventions of the embedding:
* Python `int` fields become `ℤ`.
* The source converts `interval` and `timeout` from milliseconds to seconds
  with a float division by 1000 (lines 78 and 83) and works with
  seconds-valued floats from then on.  The embedding keeps every
  seconds-valued quantity scaled by 1000, i.e. in exact milliseconds:
  - the deadline comparison `now - start_time >= timeout` (lines 86, 107)
    is invariant under the scaling, so it is transcribed as the integer
    comparison `clock i - clock 0 ≥ options.timeout`;
  - `current_interval = floor(current_interval * backoff_factor)`
    (line 114) floors the seconds value to an integer; on the scaled
    representation `n = 1000 * current_interval` this is exactly
    `n := 1000 * ((n * backoff_factor).fdiv 1000)` (`Int.fdiv` is floor
    division).  The stored value stays exact at every step: initially
    `n = interval`, and after the first update it is a multiple of 1000.
  This replaces binary floating point by exact rational arithmetic; at all
  inputs considered here the two agree.
* The event-loop clock `asyncio.get_event_loop().time()` is modelled as a
  function `clock : ℕ → ℤ` giving the value (in milliseconds) returned by
  the i-th call to the clock during a run: call 0 is `start_time`
  (line 81), and the loop then consumes one value per deadline check, in
  program order.
* The polled operation `fn` is modelled by the outcome of each invocation:
  `fn : ℕ → Except E R`, where `fn k` is what the k-th invocation (k = the
  value of `attempts` after the increment on line 91) returns (`.ok v`) or
  raises (`.error e`).
* `await asyncio.sleep current_interval` is modelled by recording the
  requested duration (in milliseconds); `pollWaits` returns the list of
  sleeps performed, in order.
* Python truthiness of `last_error` (an `Exception | None`) is modelled as
  `Option.isSome`: exception objects are truthy.
-/

/-- `PollingOptions` (polling.py lines 10-17): all four fields are Python
ints; `interval` and `timeout` are in milliseconds. -/
structure PollingOptions where
  interval : ℤ
  timeout : ℤ
  backoff_factor : ℤ := 1
  retry_limit : ℤ := 1
deriving DecidableEq, Repr

/-- `PollingResult[T] = PollSuccess[T] | PollFailure` (lines 20-32).
`PollSuccess.result : T | None` and `PollFailure.error : Exception | None`
are optional in the source, hence the `Option` payloads. -/
inductive PollingResult (R E : Type) where
  | success (result : Option R) (attempts : ℕ)
  | failure (error : Option E) (attempts : ℕ)
deriving DecidableEq, Repr

/-- The `attempts` field carried by either variant of `PollingResult`. -/
def PollingResult.attempts : PollingResult R E → ℕ
  | .success _ n => n
  | .failure _ n => n

/-- The loop-local mutable state of `poll` (lines 77-84): the attempt
counter, the current inter-attempt interval (milliseconds in the scaled
representation), the last result and last error, plus bookkeeping for the
embedding: the index of the next clock query and the sleeps performed so
far. -/
structure PollState (R E : Type) where
  attempts : ℕ
  currentInterval : ℤ
  lastResult : Option R
  lastError : Option E
  clockIdx : ℕ
  waits : List ℤ

/-- The outcome construction shared by the deadline exits (lines 86-89 and
107-110) and the post-loop return (lines 116-118):
`if last_error and retry_on_error: return PollFailure(error=last_error, ...)`
`return PollSuccess(result=last_result, ...)`. -/
def finalize (s : PollState R E) (retryOnError : Bool) : PollingResult R E :=
  if s.lastError.isSome && retryOnError then .failure s.lastError s.attempts
  else .success s.lastResult s.attempts

/-- The `while attempts < options.retry_limit` loop of `poll`
(lines 85-114) followed by the post-loop return (lines 116-118).

`fuel` bounds the number of remaining iterations; the entry point passes
`retry_limit.toNat`, which suffices because `attempts` increases by one per
iteration, so when the fuel runs out the guard `attempts < retry_limit`
is false as well and both paths reach the post-loop return.

Each iteration, in source order: the deadline check of line 86 (one clock
query); the attempt (lines 91-105), whose early `return`s are the `.inl`
branches of `step`; the second deadline check of line 107 (one clock
query); and the conditional sleep and backoff update of lines 112-114
(see the module docstring for the scaled transcription of line 114). -/
def pollLoop (fn : ℕ → Except E R) (stop : Option (R → Bool)) (retryOnError : Bool)
    (timeout : ℤ) (backoff : ℤ) (retryLimit : ℤ) (clock : ℕ → ℤ) (start : ℤ)
    (fuel : ℕ) (s : PollState R E) : PollingResult R E × List ℤ :=
  match fuel with
  | 0 => (finalize s retryOnError, s.waits)
  | fuel + 1 =>
    if ¬((s.attempts : ℤ) < retryLimit) then (finalize s retryOnError, s.waits)
    else if timeout ≤ clock s.clockIdx - start then (finalize s retryOnError, s.waits)
    else
      let a := s.attempts + 1
      let step : PollingResult R E ⊕ PollState R E :=
        match fn a with
        | .ok v =>
          match stop with
          | some p =>
            if p v then .inl (.success (some v) a)
            else .inr { s with attempts := a, lastResult := some v, lastError := none }
          | none => .inl (.success (some v) a)
        | .error e =>
          if !retryOnError then .inl (.failure (some e) a)
          else .inr { s with attempts := a, lastError := some e }
      match step with
      | .inl r => (r, s.waits)
      | .inr s1 =>
        if timeout ≤ clock (s.clockIdx + 1) - start then (finalize s1 retryOnError, s1.waits)
        else if (a : ℤ) < retryLimit then
          pollLoop fn stop retryOnError timeout backoff retryLimit clock start fuel
            { s1 with clockIdx := s.clockIdx + 2,
                      waits := s1.waits ++ [s1.currentInterval],
                      currentInterval := 1000 * ((s1.currentInterval * backoff).fdiv 1000) }
        else
          pollLoop fn stop retryOnError timeout backoff retryLimit clock start fuel
            { s1 with clockIdx := s.clockIdx + 2 }

/-- `poll` (lines 35-118) together with the trace of sleeps it performs:
sets `retry_on_error = stop_condition is None` (line 76), initializes
`current_interval` from `options.interval` (line 78), reads the start time
(line 81, clock query 0) and runs the loop. -/
def pollRun (fn : ℕ → Except E R) (options : PollingOptions)
    (stop : Option (R → Bool)) (clock : ℕ → ℤ) : PollingResult R E × List ℤ :=
  pollLoop fn stop stop.isNone options.timeout options.backoff_factor
    options.retry_limit clock (clock 0) options.retry_limit.toNat
    { attempts := 0, currentInterval := options.interval,
      lastResult := none, lastError := none, clockIdx := 1, waits := [] }

/-- The `PollingResult` returned by `poll` (lines 35-118). -/
def poll (fn : ℕ → Except E R) (options : PollingOptions)
    (stop : Option (R → Bool)) (clock : ℕ → ℤ) : PollingResult R E :=
  (pollRun fn options stop clock).1

/-- The successive sleep durations (in milliseconds) that `poll` passes to
`asyncio.sleep` (line 113), in order. -/
def pollWaits (fn : ℕ → Except E R) (options : PollingOptions)
    (stop : Option (R → Bool)) (clock : ℕ → ℤ) : List ℤ :=
  (pollRun fn options stop clock).2

/-- `poll_sync` (lines 121-144): wraps the synchronous `fn` in a coroutine
returning the same values and delegates to `poll` via `asyncio.run`. -/
def poll_sync (fn : ℕ → Except E R) (options : PollingOptions)
    (stop : Option (R → Bool)) (clock : ℕ → ℤ) : PollingResult R E :=
  poll fn options stop clock

example :
    poll (fun _ => .ok 42) ⟨500, 5000, 2, 10⟩ (some fun x => x == 42)
      (fun _ => 0) = (.success (some 42) 1 : PollingResult ℕ ℕ) := by decide

example :
    poll (fun _ => .ok 0) ⟨100, 0, 1, 1⟩ none (fun _ => 0)
      = (.success none 0 : PollingResult ℕ ℕ) := by decide

example :
    pollWaits (E := ℕ) (fun _ => .ok 0) ⟨100, 3600000, 2, 4⟩
      (some fun _ => false) (fun _ => 0) = [100, 0, 0] := by decide

example :
    pollWaits (E := ℕ) (fun _ => .ok 0) ⟨2500, 3600000, 2, 4⟩
      (some fun _ => false) (fun _ => 0) = [2500, 5000, 10000] := by decide

example :
    poll (R := ℕ) (fun k => .error k) ⟨100, 3600000, 1, 3⟩ none (fun _ => 0)
      = .failure (some 3) 3 := by decide

/-!
Embedding of `memomize_with_ttl` (polling.py lines 147-226).

* `datetime.now()` values and `timedelta` values are modelled as integers
  (an arbitrary fixed time unit); `now + ttl` is integer addition.
* A wrapped function that may raise is modelled as `fn : α → Except E R`;
  `.error e` is an exception propagating out of the call.
* `memomize_with_ttl` allocates one `cache` cell in its own frame
  (line 207); the inner `func` (lines 211-219) accesses it via
  `nonlocal cache` (line 212).  `memoCall` below is `func` as a state
  transformer on that one cell; `heapCall` places the cells in an
  explicit heap indexed by allocation number, so that wrappers produced
  by the same `memomize_with_ttl` call share one cell while wrappers from
  distinct calls use distinct cells.
-/

instance [DecidableEq ε] [DecidableEq α] : DecidableEq (Except ε α)
  | .ok a, .ok b =>
    if h : a = b then .isTrue (by rw [h]) else .isFalse (by simp [h])
  | .ok _, .error _ => .isFalse (by simp)
  | .error _, .ok _ => .isFalse (by simp)
  | .error a, .error b =>
    if h : a = b then .isTrue (by rw [h]) else .isFalse (by simp [h])

/-- `Cache[T] = {value: T, expiry: datetime | None}` (lines 150-152). -/
structure Cache (R : Type) where
  value : R
  expiry : Option ℤ
deriving DecidableEq, Repr

/-- The validity test of line 214:
`cache and (cache["expiry"] is None or now < cache["expiry"])`, for one
existing entry (a populated dict is truthy). -/
def cacheValidEntry (c : Cache R) (now : ℤ) : Bool :=
  match c.expiry with
  | none => true
  | some t => now < t

/-- One call of the wrapped function `func` (lines 211-219), as a state
transformer on the single `cache` cell: given the cell's contents and the
current time `now`, it returns the call's outcome, the new cell contents,
and whether the underlying `fn` was invoked.  On a valid cached entry the
stored value is returned and `fn` is not called (lines 214-215); otherwise
`fn` runs (line 216) — if it raises, the exception propagates and the cell
is left unchanged; on success the cell is replaced by
`{value: result, expiry: None if ttl is None else now + ttl}`
(lines 217-218). -/
def memoCall (ttl : Option ℤ) (fn : α → Except E R)
    (cache : Option (Cache R)) (now : ℤ) (x : α) :
    Except E R × Option (Cache R) × Bool :=
  match cache with
  | some c =>
    if cacheValidEntry c now then (.ok c.value, some c, false)
    else
      match fn x with
      | .error e => (.error e, some c, true)
      | .ok r => (.ok r, some ⟨r, ttl.map (now + ·)⟩, true)
  | none =>
    match fn x with
    | .error e => (.error e, none, true)
    | .ok r => (.ok r, some ⟨r, ttl.map (now + ·)⟩, true)

/-- A function wrapped by `memomize_with_ttl`: `cell` is the cache cell of
the `memomize_with_ttl` call that produced its wrapper (line 207), `ttl`
the keyword argument of that call, `fn` the wrapped function.  Wrappers
returned by applying the decorator of one `memomize_with_ttl(ttl=...)`
call to several functions carry the same `cell` (the `nonlocal cache` of
that single call frame); wrappers from distinct calls carry distinct
cells. -/
structure Memoized (α R E : Type) where
  cell : ℕ
  ttl : Option ℤ
  fn : α → Except E R

/-- The heap of cache cells, indexed by allocation number. -/
def Heap (R : Type) := ℕ → Option (Cache R)

/-- Overwrite one heap cell. -/
def Heap.set (h : Heap R) (i : ℕ) (c : Option (Cache R)) : Heap R :=
  fun j => if j = i then c else h j

/-- One call of a memoized function against the heap of cache cells:
`memoCall` on the function's own cell, every other cell untouched. -/
def heapCall (m : Memoized α R E) (h : Heap R) (now : ℤ) (x : α) :
    Except E R × Heap R × Bool :=
  let r := memoCall m.ttl m.fn (h m.cell) now x
  (r.1, h.set m.cell r.2.1, r.2.2)

example :
    memoCall (some 60) (fun x : ℕ => (.ok (x * x) : Except ℕ ℕ)) none 0 7
      = (.ok 49, some ⟨49, some 60⟩, true) := by decide

example :
    memoCall (some 60) (fun x : ℕ => (.ok (x * x) : Except ℕ ℕ)) (some ⟨49, some 60⟩) 59 8
      = (.ok 49, some ⟨49, some 60⟩, false) := by decide

/-! Helper lemmas about the polling loop. -/

theorem finalize_attempts (s : PollState R E) (roe : Bool) :
    (finalize s roe).attempts = s.attempts := by
  unfold finalize; split <;> rfl

/-- The tail of one loop iteration after an attempt that did not return
early (lines 107-114 of the source): the second deadline check, the
conditional sleep and backoff update, and the remaining iterations.  This
names the subterm of `pollLoop` reached through its `.inr` branch, for the
unfolding equations below. -/
def pollCont (fn : ℕ → Except E R) (stop : Option (R → Bool)) (roe : Bool)
    (timeout backoff retryLimit : ℤ) (clock : ℕ → ℤ) (start : ℤ)
    (fuel : ℕ) (s1 : PollState R E) : PollingResult R E × List ℤ :=
  if timeout ≤ clock (s1.clockIdx + 1) - start then (finalize s1 roe, s1.waits)
  else if (s1.attempts : ℤ) < retryLimit then
    pollLoop fn stop roe timeout backoff retryLimit clock start fuel
      { s1 with clockIdx := s1.clockIdx + 2,
                waits := s1.waits ++ [s1.currentInterval],
                currentInterval := 1000 * ((s1.currentInterval * backoff).fdiv 1000) }
  else
    pollLoop fn stop roe timeout backoff retryLimit clock start fuel
      { s1 with clockIdx := s1.clockIdx + 2 }

/-- Loop exit through the `while` guard: `attempts ≥ retry_limit`. -/
theorem pollLoop_guard_false {fn : ℕ → Except E R} {stop : Option (R → Bool)}
    {roe : Bool} {timeout backoff retryLimit : ℤ} {clock : ℕ → ℤ} {start : ℤ}
    {fuel : ℕ} {s : PollState R E} (hg : ¬((s.attempts : ℤ) < retryLimit)) :
    pollLoop fn stop roe timeout backoff retryLimit clock start (fuel + 1) s
      = (finalize s roe, s.waits) := by
  rw [pollLoop]; exact if_pos hg

/-- Loop exit through the first deadline check (line 86). -/
theorem pollLoop_deadline1 {fn : ℕ → Except E R} {stop : Option (R → Bool)}
    {roe : Bool} {timeout backoff retryLimit : ℤ} {clock : ℕ → ℤ} {start : ℤ}
    {fuel : ℕ} {s : PollState R E} (hg : (s.attempts : ℤ) < retryLimit)
    (hd : timeout ≤ clock s.clockIdx - start) :
    pollLoop fn stop roe timeout backoff retryLimit clock start (fuel + 1) s
      = (finalize s roe, s.waits) := by
  rw [pollLoop]; rw [if_neg (not_not_intro hg)]; exact if_pos hd

/-- Early return on a value with no stop predicate (line 101). -/
theorem pollLoop_ok_nostop {fn : ℕ → Except E R}
    {roe : Bool} {timeout backoff retryLimit : ℤ} {clock : ℕ → ℤ} {start : ℤ}
    {fuel : ℕ} {s : PollState R E} {v : R} (hg : (s.attempts : ℤ) < retryLimit)
    (hd : ¬(timeout ≤ clock s.clockIdx - start))
    (hfn : fn (s.attempts + 1) = .ok v) :
    pollLoop fn none roe timeout backoff retryLimit clock start (fuel + 1) s
      = (.success (some v) (s.attempts + 1), s.waits) := by
  rw [pollLoop]; rw [if_neg (not_not_intro hg), if_neg hd]
  simp only [hfn]

/-- Early return on a value satisfying the stop predicate (line 99). -/
theorem pollLoop_ok_stop_true {fn : ℕ → Except E R} {p : R → Bool}
    {roe : Bool} {timeout backoff retryLimit : ℤ} {clock : ℕ → ℤ} {start : ℤ}
    {fuel : ℕ} {s : PollState R E} {v : R} (hg : (s.attempts : ℤ) < retryLimit)
    (hd : ¬(timeout ≤ clock s.clockIdx - start))
    (hfn : fn (s.attempts + 1) = .ok v) (hp : p v = true) :
    pollLoop fn (some p) roe timeout backoff retryLimit clock start (fuel + 1) s
      = (.success (some v) (s.attempts + 1), s.waits) := by
  rw [pollLoop]; rw [if_neg (not_not_intro hg), if_neg hd]
  simp only [hfn, hp, ite_true]

/-- A value not satisfying the stop predicate: fall through to the tail of
the iteration with the value recorded and the error cleared (lines 97-98,
falling to 107). -/
theorem pollLoop_ok_stop_false {fn : ℕ → Except E R} {p : R → Bool}
    {roe : Bool} {timeout backoff retryLimit : ℤ} {clock : ℕ → ℤ} {start : ℤ}
    {fuel : ℕ} {s : PollState R E} {v : R} (hg : (s.attempts : ℤ) < retryLimit)
    (hd : ¬(timeout ≤ clock s.clockIdx - start))
    (hfn : fn (s.attempts + 1) = .ok v) (hp : p v = false) :
    pollLoop fn (some p) roe timeout backoff retryLimit clock start (fuel + 1) s
      = pollCont fn (some p) roe timeout backoff retryLimit clock start fuel
          { s with attempts := s.attempts + 1, lastResult := some v, lastError := none } := by
  rw [pollLoop]; rw [if_neg (not_not_intro hg), if_neg hd]
  simp only [hfn, hp, Bool.false_eq_true, ite_false]
  rfl

/-- An error with a stop predicate in effect (`retry_on_error` false):
immediate `PollFailure` (lines 102-105). -/
theorem pollLoop_error_fatal {fn : ℕ → Except E R} {stop : Option (R → Bool)}
    {timeout backoff retryLimit : ℤ} {clock : ℕ → ℤ} {start : ℤ}
    {fuel : ℕ} {s : PollState R E} {e : E} (hg : (s.attempts : ℤ) < retryLimit)
    (hd : ¬(timeout ≤ clock s.clockIdx - start))
    (hfn : fn (s.attempts + 1) = .error e) :
    pollLoop fn stop false timeout backoff retryLimit clock start (fuel + 1) s
      = (.failure (some e) (s.attempts + 1), s.waits) := by
  rw [pollLoop]; rw [if_neg (not_not_intro hg), if_neg hd]
  simp only [hfn, Bool.not_false, ite_true]

/-- An error with no stop predicate (`retry_on_error` true): record it and
fall through to the tail of the iteration (lines 102-103, falling
to 107). -/
theorem pollLoop_error_retry {fn : ℕ → Except E R} {stop : Option (R → Bool)}
    {timeout backoff retryLimit : ℤ} {clock : ℕ → ℤ} {start : ℤ}
    {fuel : ℕ} {s : PollState R E} {e : E} (hg : (s.attempts : ℤ) < retryLimit)
    (hd : ¬(timeout ≤ clock s.clockIdx - start))
    (hfn : fn (s.attempts + 1) = .error e) :
    pollLoop fn stop true timeout backoff retryLimit clock start (fuel + 1) s
      = pollCont fn stop true timeout backoff retryLimit clock start fuel
          { s with attempts := s.attempts + 1, lastError := some e } := by
  rw [pollLoop]; rw [if_neg (not_not_intro hg), if_neg hd]
  simp only [hfn, Bool.not_true, Bool.false_eq_true, ite_false]
  rfl

/-- Iteration tail when the second deadline check passes and more attempts
remain: sleep, grow the interval, continue (lines 112-114). -/
theorem pollCont_continue_sleep {fn : ℕ → Except E R} {stop : Option (R → Bool)}
    {roe : Bool} {timeout backoff retryLimit : ℤ} {clock : ℕ → ℤ} {start : ℤ}
    {fuel : ℕ} {s1 : PollState R E}
    (hd : ¬(timeout ≤ clock (s1.clockIdx + 1) - start))
    (hg : (s1.attempts : ℤ) < retryLimit) :
    pollCont fn stop roe timeout backoff retryLimit clock start fuel s1
      = pollLoop fn stop roe timeout backoff retryLimit clock start fuel
          { s1 with clockIdx := s1.clockIdx + 2,
                    waits := s1.waits ++ [s1.currentInterval],
                    currentInterval := 1000 * ((s1.currentInterval * backoff).fdiv 1000) } := by
  unfold pollCont; rw [if_neg hd, if_pos hg]

/-- Iteration tail when the second deadline check passes but the retry
budget is spent: no sleep, fall back to the loop guard (line 112 false). -/
theorem pollCont_continue_nosleep {fn : ℕ → Except E R} {stop : Option (R → Bool)}
    {roe : Bool} {timeout backoff retryLimit : ℤ} {clock : ℕ → ℤ} {start : ℤ}
    {fuel : ℕ} {s1 : PollState R E}
    (hd : ¬(timeout ≤ clock (s1.clockIdx + 1) - start))
    (hg : ¬((s1.attempts : ℤ) < retryLimit)) :
    pollCont fn stop roe timeout backoff retryLimit clock start fuel s1
      = pollLoop fn stop roe timeout backoff retryLimit clock start fuel
          { s1 with clockIdx := s1.clockIdx + 2 } := by
  unfold pollCont; rw [if_neg hd, if_neg hg]

/-- Each loop iteration performs at most one attempt, and the attempts
counter never decreases: the attempts count of the outcome lies between the
entry count and the entry count plus the remaining fuel. -/
theorem pollLoop_attempts_bounds (fn : ℕ → Except E R) (stop : Option (R → Bool))
    (roe : Bool) (timeout backoff retryLimit : ℤ) (clock : ℕ → ℤ) (start : ℤ) :
    ∀ (fuel : ℕ) (s : PollState R E),
      s.attempts ≤
          (pollLoop fn stop roe timeout backoff retryLimit clock start fuel s).1.attempts ∧
        (pollLoop fn stop roe timeout backoff retryLimit clock start fuel s).1.attempts
          ≤ s.attempts + fuel := by
  intro fuel
  induction fuel with
  | zero => intro s; simp [pollLoop, finalize_attempts]
  | succ n ih =>
    intro s
    by_cases hg : (s.attempts : ℤ) < retryLimit
    · by_cases hd : timeout ≤ clock s.clockIdx - start
      · rw [pollLoop_deadline1 hg hd]; simp [finalize_attempts]
      · rcases hfn : fn (s.attempts + 1) with e | v
        · cases roe
          · rw [pollLoop_error_fatal hg hd hfn]
            simp [PollingResult.attempts]
          · rw [pollLoop_error_retry hg hd hfn]
            unfold pollCont
            split_ifs
            · simp [finalize_attempts]
            · refine ⟨le_trans ?_ (ih _).1, le_trans (ih _).2 ?_⟩
              · show s.attempts ≤ s.attempts + 1
                omega
              · show s.attempts + 1 + n ≤ s.attempts + (n + 1)
                omega
            · refine ⟨le_trans ?_ (ih _).1, le_trans (ih _).2 ?_⟩
              · show s.attempts ≤ s.attempts + 1
                omega
              · show s.attempts + 1 + n ≤ s.attempts + (n + 1)
                omega
        · rcases stop with _ | p
          · rw [pollLoop_ok_nostop hg hd hfn]
            simp [PollingResult.attempts]
          · rcases hp : p v
            · rw [pollLoop_ok_stop_false hg hd hfn hp]
              unfold pollCont
              split_ifs
              · simp [finalize_attempts]
              · refine ⟨le_trans ?_ (ih _).1, le_trans (ih _).2 ?_⟩
                · show s.attempts ≤ s.attempts + 1
                  omega
                · show s.attempts + 1 + n ≤ s.attempts + (n + 1)
                  omega
              · refine ⟨le_trans ?_ (ih _).1, le_trans (ih _).2 ?_⟩
                · show s.attempts ≤ s.attempts + 1
                  omega
                · show s.attempts + 1 + n ≤ s.attempts + (n + 1)
                  omega
            · rw [pollLoop_ok_stop_true hg hd hfn hp]
              simp [PollingResult.attempts]
    · rw [pollLoop_guard_false hg]; simp [finalize_attempts]

/-- Implicit-argument corollary of `pollLoop_attempts_bounds`: lower. -/
theorem attempts_le_pollLoop {fn : ℕ → Except E R} {stop : Option (R → Bool)}
    {roe : Bool} {timeout backoff retryLimit : ℤ} {clock : ℕ → ℤ} {start : ℤ}
    {fuel : ℕ} {s : PollState R E} :
    s.attempts ≤
      (pollLoop fn stop roe timeout backoff retryLimit clock start fuel s).1.attempts :=
  (pollLoop_attempts_bounds fn stop roe timeout backoff retryLimit clock start fuel s).1

/-- Implicit-argument corollary of `pollLoop_attempts_bounds`: upper. -/
theorem pollLoop_attempts_le {fn : ℕ → Except E R} {stop : Option (R → Bool)}
    {roe : Bool} {timeout backoff retryLimit : ℤ} {clock : ℕ → ℤ} {start : ℤ}
    {fuel : ℕ} {s : PollState R E} :
    (pollLoop fn stop roe timeout backoff retryLimit clock start fuel s).1.attempts
      ≤ s.attempts + fuel :=
  (pollLoop_attempts_bounds fn stop roe timeout backoff retryLimit clock start fuel s).2

/-- If the `while` guard and the first deadline check both pass, the
iteration performs an attempt, so the outcome's attempts count exceeds the
entry count. -/
theorem pollLoop_attempts_pos (fn : ℕ → Except E R) (stop : Option (R → Bool))
    (roe : Bool) (timeout backoff retryLimit : ℤ) (clock : ℕ → ℤ) (start : ℤ)
    (fuel : ℕ) (s : PollState R E)
    (hg : (s.attempts : ℤ) < retryLimit)
    (hd : ¬(timeout ≤ clock s.clockIdx - start)) :
    s.attempts + 1 ≤
      (pollLoop fn stop roe timeout backoff retryLimit clock start (fuel + 1) s).1.attempts := by
  rcases hfn : fn (s.attempts + 1) with e | v
  · cases roe
    · rw [pollLoop_error_fatal hg hd hfn]; exact le_refl _
    · rw [pollLoop_error_retry hg hd hfn]
      unfold pollCont
      split_ifs
      · simp [finalize_attempts]
      · refine le_trans ?_ attempts_le_pollLoop
        show s.attempts + 1 ≤ s.attempts + 1
        omega
      · refine le_trans ?_ attempts_le_pollLoop
        show s.attempts + 1 ≤ s.attempts + 1
        omega
  · rcases stop with _ | p
    · rw [pollLoop_ok_nostop hg hd hfn]; exact le_refl _
    · rcases hp : p v
      · rw [pollLoop_ok_stop_false hg hd hfn hp]
        unfold pollCont
        split_ifs
        · simp [finalize_attempts]
        · refine le_trans ?_ attempts_le_pollLoop
          show s.attempts + 1 ≤ s.attempts + 1
          omega
        · refine le_trans ?_ attempts_le_pollLoop
          show s.attempts + 1 ≤ s.attempts + 1
          omega
      · rw [pollLoop_ok_stop_true hg hd hfn hp]; exact le_refl _

/-- The attempts count in a `poll` outcome never exceeds `retry_limit`. -/
theorem poll_attempts_le (fn : ℕ → Except E R) (options : PollingOptions)
    (stop : Option (R → Bool)) (clock : ℕ → ℤ) :
    (poll fn options stop clock).attempts ≤ options.retry_limit.toNat := by
  have h := (pollLoop_attempts_bounds fn stop stop.isNone options.timeout
    options.backoff_factor options.retry_limit clock (clock 0)
    options.retry_limit.toNat
    { attempts := 0, currentInterval := options.interval,
      lastResult := none, lastError := none, clockIdx := 1, waits := [] }).2
  simpa [poll, pollRun] using h

/-- If `retry_limit ≥ 1` and the clock has not reached the deadline at the
first check, `poll` performs at least one attempt. -/
theorem poll_attempts_pos (fn : ℕ → Except E R) (options : PollingOptions)
    (stop : Option (R → Bool)) (clock : ℕ → ℤ)
    (hret : 1 ≤ options.retry_limit)
    (hclock : clock 1 - clock 0 < options.timeout) :
    1 ≤ (poll fn options stop clock).attempts := by
  obtain ⟨m, hm⟩ : ∃ m, options.retry_limit.toNat = m + 1 :=
    ⟨options.retry_limit.toNat - 1, by omega⟩
  have h := pollLoop_attempts_pos fn stop stop.isNone options.timeout
    options.backoff_factor options.retry_limit clock (clock 0) m
    { attempts := 0, currentInterval := options.interval,
      lastResult := none, lastError := none, clockIdx := 1, waits := [] }
    (by show ((0 : ℕ) : ℤ) < options.retry_limit; omega)
    (by show ¬(options.timeout ≤ clock 1 - clock 0); omega)
  rw [show poll fn options stop clock
      = (pollLoop fn stop stop.isNone options.timeout options.backoff_factor
          options.retry_limit clock (clock 0) (m + 1)
          { attempts := 0, currentInterval := options.interval,
            lastResult := none, lastError := none, clockIdx := 1, waits := [] }).1
    from by rw [poll, pollRun, hm]]
  exact h

/-- Run lemma for a fatal error under a stop predicate: starting from any
loop state, if every attempt after `s.attempts` and before `k` returns a
value the predicate rejects, no deadline check up to attempt `k` fires,
and attempt `k` raises `e`, then the loop returns `PollFailure(e)` with
attempts `k`. -/
theorem pollLoop_error_stops_gen (fn : ℕ → Except E R) (p : R → Bool)
    (timeout backoff retryLimit : ℤ) (clock : ℕ → ℤ) (start : ℤ) (e : E) (k : ℕ) :
    ∀ (fuel : ℕ) (s : PollState R E),
      s.attempts < k →
      ((k : ℤ) - 1 < retryLimit) →
      k ≤ s.attempts + fuel →
      (∀ i, s.attempts < i → i < k → ∃ v, fn i = .ok v ∧ p v = false) →
      fn k = .error e →
      (∀ j, s.clockIdx ≤ j → j ≤ s.clockIdx + 2 * (k - s.attempts) - 2 →
        clock j - start < timeout) →
      (pollLoop fn (some p) false timeout backoff retryLimit clock start fuel s).1
        = .failure (some e) k := by
  intro fuel
  induction fuel with
  | zero => intro s hk hrl hfuel hp he hc; omega
  | succ f ih =>
    intro s hk hrl hfuel hprev herr hchecks
    have hg : (s.attempts : ℤ) < retryLimit := by omega
    have hd : ¬(timeout ≤ clock s.clockIdx - start) := by
      have := hchecks s.clockIdx (Nat.le_refl _) (by omega)
      omega
    by_cases hke : s.attempts + 1 = k
    · rw [pollLoop_error_fatal hg hd (by rw [hke]; exact herr)]
      show PollingResult.failure (some e) (s.attempts + 1) = .failure (some e) k
      rw [hke]
    · obtain ⟨v, hv, hpv⟩ := hprev (s.attempts + 1) (by omega) (by omega)
      rw [pollLoop_ok_stop_false hg hd hv hpv]
      rw [pollCont_continue_sleep
        (by show ¬(timeout ≤ clock (s.clockIdx + 1) - start)
            have := hchecks (s.clockIdx + 1) (by omega) (by omega)
            omega)
        (by show ((s.attempts + 1 : ℕ) : ℤ) < retryLimit
            omega)]
      refine ih _ ?_ hrl ?_ ?_ herr ?_
      · show s.attempts + 1 < k
        omega
      · show k ≤ s.attempts + 1 + f
        omega
      · intro i h1 h2
        have h1' : s.attempts + 1 < i := h1
        exact hprev i (by omega) h2
      · intro j h1 h2
        have h1' : s.clockIdx + 2 ≤ j := h1
        have h2' : j ≤ s.clockIdx + 2 + 2 * (k - (s.attempts + 1)) - 2 := h2
        exact hchecks j (by omega) (by omega)

/-- Run lemma for exhaustion with every attempt erroring and no stop
predicate: with exactly `fuel` attempts left in the budget, every one of
them raising, and no deadline check firing, the loop drains the budget and
returns `PollFailure` carrying the last error with `attempts`
= `s.attempts + fuel`. -/
theorem pollLoop_all_errors_gen (fn : ℕ → Except E R) (err : ℕ → E)
    (timeout backoff retryLimit : ℤ) (clock : ℕ → ℤ) (start : ℤ) :
    ∀ (fuel : ℕ) (s : PollState R E),
      1 ≤ fuel →
      ((s.attempts : ℤ) + fuel = retryLimit) →
      (∀ i, s.attempts < i → i ≤ s.attempts + fuel → fn i = .error (err i)) →
      (∀ j, s.clockIdx ≤ j → j ≤ s.clockIdx + 2 * fuel - 1 →
        clock j - start < timeout) →
      (pollLoop fn none true timeout backoff retryLimit clock start fuel s).1
        = .failure (some (err (s.attempts + fuel))) (s.attempts + fuel) := by
  intro fuel
  induction fuel with
  | zero => intro s h1 _ _ _; omega
  | succ f ih =>
    intro s hf hrl herrs hchecks
    have hg : (s.attempts : ℤ) < retryLimit := by omega
    have hd : ¬(timeout ≤ clock s.clockIdx - start) := by
      have := hchecks s.clockIdx (Nat.le_refl _) (by omega)
      omega
    have herr1 : fn (s.attempts + 1) = .error (err (s.attempts + 1)) :=
      herrs (s.attempts + 1) (by omega) (by omega)
    rw [pollLoop_error_retry hg hd herr1]
    have hd2 : ¬(timeout ≤ clock (s.clockIdx + 1) - start) := by
      have := hchecks (s.clockIdx + 1) (by omega) (by omega)
      omega
    rcases Nat.eq_zero_or_pos f with hf0 | hf1
    · subst hf0
      rw [pollCont_continue_nosleep
        (by show ¬(timeout ≤ clock (s.clockIdx + 1) - start); exact hd2)
        (by show ¬(((s.attempts + 1 : ℕ) : ℤ) < retryLimit); omega)]
      simp [pollLoop, finalize]
    · rw [pollCont_continue_sleep
        (by show ¬(timeout ≤ clock (s.clockIdx + 1) - start); exact hd2)
        (by show ((s.attempts + 1 : ℕ) : ℤ) < retryLimit; omega)]
      rw [show s.attempts + (f + 1) = s.attempts + 1 + f from by omega]
      refine ih _ hf1 ?_ ?_ ?_
      · show ((s.attempts + 1 : ℕ) : ℤ) + (f : ℤ) = retryLimit
        omega
      · intro i h1 h2
        have h1' : s.attempts + 1 < i := h1
        have h2' : i ≤ s.attempts + 1 + f := h2
        exact herrs i (by omega) (by omega)
      · intro j h1 h2
        have h1' : s.clockIdx + 2 ≤ j := h1
        have h2' : j ≤ s.clockIdx + 2 + 2 * f - 1 := h2
        exact hchecks j (by omega) (by omega)

/-- Run lemma for exhaustion under a never-satisfied stop predicate with
no errors: with exactly `fuel` attempts left in the budget, every one of
them returning a value the predicate rejects, and no deadline check
firing, the loop drains the budget and returns `PollSuccess` carrying the
last value with `attempts = s.attempts + fuel`. -/
theorem pollLoop_never_stop_gen (fn : ℕ → Except E R) (val : ℕ → R) (p : R → Bool)
    (timeout backoff retryLimit : ℤ) (clock : ℕ → ℤ) (start : ℤ) :
    ∀ (fuel : ℕ) (s : PollState R E),
      1 ≤ fuel →
      ((s.attempts : ℤ) + fuel = retryLimit) →
      (∀ i, s.attempts < i → i ≤ s.attempts + fuel →
        fn i = .ok (val i) ∧ p (val i) = false) →
      (∀ j, s.clockIdx ≤ j → j ≤ s.clockIdx + 2 * fuel - 1 →
        clock j - start < timeout) →
      (pollLoop fn (some p) false timeout backoff retryLimit clock start fuel s).1
        = .success (some (val (s.attempts + fuel))) (s.attempts + fuel) := by
  intro fuel
  induction fuel with
  | zero => intro s h1 _ _ _; omega
  | succ f ih =>
    intro s hf hrl hvals hchecks
    have hg : (s.attempts : ℤ) < retryLimit := by omega
    have hd : ¬(timeout ≤ clock s.clockIdx - start) := by
      have := hchecks s.clockIdx (Nat.le_refl _) (by omega)
      omega
    obtain ⟨hv1, hp1⟩ := hvals (s.attempts + 1) (by omega) (by omega)
    rw [pollLoop_ok_stop_false hg hd hv1 hp1]
    have hd2 : ¬(timeout ≤ clock (s.clockIdx + 1) - start) := by
      have := hchecks (s.clockIdx + 1) (by omega) (by omega)
      omega
    rcases Nat.eq_zero_or_pos f with hf0 | hf1
    · subst hf0
      rw [pollCont_continue_nosleep
        (by show ¬(timeout ≤ clock (s.clockIdx + 1) - start); exact hd2)
        (by show ¬(((s.attempts + 1 : ℕ) : ℤ) < retryLimit); omega)]
      simp [pollLoop, finalize]
    · rw [pollCont_continue_sleep
        (by show ¬(timeout ≤ clock (s.clockIdx + 1) - start); exact hd2)
        (by show ((s.attempts + 1 : ℕ) : ℤ) < retryLimit; omega)]
      rw [show s.attempts + (f + 1) = s.attempts + 1 + f from by omega]
      refine ih _ hf1 ?_ ?_ ?_
      · show ((s.attempts + 1 : ℕ) : ℤ) + (f : ℤ) = retryLimit
        omega
      · intro i h1 h2
        have h1' : s.attempts + 1 < i := h1
        have h2' : i ≤ s.attempts + 1 + f := h2
        exact hvals i (by omega) (by omega)
      · intro j h1 h2
        have h1' : s.clockIdx + 2 ≤ j := h1
        have h2' : j ≤ s.clockIdx + 2 + 2 * f - 1 := h2
        exact hchecks j (by omega) (by omega)

/-! Claim theorems for the polling engine. -/

/-- C1 (amended): for every operation, every `PollingOptions` satisfying
the configuration invariant (`interval ≥ 0`, `timeout ≥ 0`,
`retry_limit ≥ 1`), every optional stop predicate and every clock trace,
the attempts count of the outcome of `poll` is at most `retry_limit`;
`poll_sync` returns the very same outcome; and the attempts count is at
least 1 provided the elapsed time observed at the first deadline check is
strictly below the timeout.  (The unconditional lower bound 1 claimed for
every non-negative timeout is false: see the counterexample theorem.) -/
theorem poll_attempts_in_range (fn : ℕ → Except E R) (options : PollingOptions)
    (stop : Option (R → Bool)) (clock : ℕ → ℤ)
    (hint : 0 ≤ options.interval) (htime : 0 ≤ options.timeout)
    (hret : 1 ≤ options.retry_limit) :
    ((poll fn options stop clock).attempts : ℤ) ≤ options.retry_limit ∧
      poll_sync fn options stop clock = poll fn options stop clock ∧
      (clock 1 - clock 0 < options.timeout →
        1 ≤ (poll fn options stop clock).attempts) := by
  refine ⟨?_, rfl, fun hclock => poll_attempts_pos fn options stop clock hret hclock⟩
  have h := poll_attempts_le fn options stop clock
  omega

/-- C1 counterexample: with `interval = 100 ≥ 0`, `timeout = 0 ≥ 0`,
`retry_limit = 1 ≥ 1` and a clock that never advances, the first deadline
check already fires (elapsed `0 ≥ timeout`), so `poll` returns
`PollSuccess(result=None)` with `attempts = 0`, violating
`1 ≤ attempts`. -/
theorem poll_attempts_zero_at_timeout_zero :
    poll (R := ℕ) (E := ℕ) (fun _ => .ok 7) ⟨100, 0, 1, 1⟩ none (fun _ => 0)
        = .success none 0 ∧
      ¬(1 ≤ (poll (R := ℕ) (E := ℕ) (fun _ => .ok 7) ⟨100, 0, 1, 1⟩ none
          (fun _ => 0)).attempts) := by
  exact ⟨by decide, by decide⟩

/-- Witness for `poll_attempts_in_range`: a concrete run with
`interval = 100`, `timeout = 3600000`, `retry_limit = 2` and a constant
clock. -/
theorem poll_attempts_in_range_witness :
    (0 ≤ ((⟨100, 3600000, 1, 2⟩ : PollingOptions)).interval ∧
        0 ≤ ((⟨100, 3600000, 1, 2⟩ : PollingOptions)).timeout ∧
        1 ≤ ((⟨100, 3600000, 1, 2⟩ : PollingOptions)).retry_limit) ∧
      (((poll (R := ℕ) (E := ℕ) (fun _ => .ok 7) ⟨100, 3600000, 1, 2⟩ none
            (fun _ => 0)).attempts : ℤ)
          ≤ ((⟨100, 3600000, 1, 2⟩ : PollingOptions)).retry_limit ∧
        poll_sync (R := ℕ) (E := ℕ) (fun _ => .ok 7) ⟨100, 3600000, 1, 2⟩ none
            (fun _ => 0)
          = poll (fun _ => .ok 7) ⟨100, 3600000, 1, 2⟩ none (fun _ => 0) ∧
        ((fun _ : ℕ => (0 : ℤ)) 1 - (fun _ : ℕ => (0 : ℤ)) 0
            < ((⟨100, 3600000, 1, 2⟩ : PollingOptions)).timeout →
          1 ≤ (poll (R := ℕ) (E := ℕ) (fun _ => .ok 7) ⟨100, 3600000, 1, 2⟩ none
            (fun _ => 0)).attempts)) :=
  ⟨⟨by decide, by decide, by decide⟩,
    poll_attempts_in_range (fun _ => .ok 7) ⟨100, 3600000, 1, 2⟩ none
      (fun _ => 0) (by decide) (by decide) (by decide)⟩

/-- C2: with `interval=100ms`, `backoff_factor=2`, `retry_limit=4`, a
distant deadline and a never-satisfied stop predicate (so all four
attempts run), the successive waits `poll` performs are 100ms, 0ms, 0ms —
not the 100ms, 200ms, 400ms the claim states.  Line 114 floors the
seconds-valued float interval: `floor(0.1 * 2) = 0`, so every wait after
the first collapses to zero. -/
theorem poll_backoff_waits_collapse :
    pollWaits (R := ℕ) (E := ℕ) (fun _ => .ok 0) ⟨100, 3600000, 2, 4⟩
        (some fun _ => false) (fun _ => 0) = [100, 0, 0] ∧
      pollWaits (R := ℕ) (E := ℕ) (fun _ => .ok 0) ⟨100, 3600000, 2, 4⟩
        (some fun _ => false) (fun _ => 0) ≠ [100, 200, 400] := by
  exact ⟨by decide, by decide⟩

/-- C3: `poll_sync` returns exactly the same `PollingResult` (same
variant, same value or error, same attempts) as `poll` on the same
operation, options and optional stop predicate: the source builds a
coroutine returning `fn`'s values unchanged and delegates to `poll` via
`asyncio.run` (lines 141-144). -/
theorem poll_sync_eq_poll (fn : ℕ → Except E R) (options : PollingOptions)
    (stop : Option (R → Bool)) (clock : ℕ → ℤ) :
    poll_sync fn options stop clock = poll fn options stop clock := rfl

/-- C4: if a stop predicate is supplied and the operation raises `e` on
attempt `k` (with the earlier attempts returning values the predicate
rejects and no deadline check firing before attempt `k`), `poll` returns
`PollFailure` carrying `e` with `attempts = k` immediately; no further
attempt is performed. -/
theorem poll_error_with_stop_fails_fast (fn : ℕ → Except E R)
    (options : PollingOptions) (p : R → Bool) (clock : ℕ → ℤ) (k : ℕ) (e : E)
    (hk1 : 1 ≤ k) (hk2 : (k : ℤ) ≤ options.retry_limit)
    (hprev : ∀ i, 1 ≤ i → i < k → ∃ v, fn i = .ok v ∧ p v = false)
    (herr : fn k = .error e)
    (hchecks : ∀ j, 1 ≤ j → j ≤ 2 * k - 1 → clock j - clock 0 < options.timeout) :
    poll fn options (some p) clock = .failure (some e) k := by
  unfold poll pollRun
  refine pollLoop_error_stops_gen fn p options.timeout options.backoff_factor
    options.retry_limit clock (clock 0) e k options.retry_limit.toNat _ ?_ ?_ ?_ ?_ herr ?_
  · show 0 < k
    omega
  · omega
  · show k ≤ 0 + options.retry_limit.toNat
    omega
  · intro i h1 h2
    have h1' : 0 < i := h1
    exact hprev i (by omega) h2
  · intro j h1 h2
    have h1' : 1 ≤ j := h1
    have h2' : j ≤ 1 + 2 * (k - 0) - 2 := h2
    exact hchecks j (by omega) (by omega)

/-- Witness for `poll_error_with_stop_fails_fast`: one attempt, an
immediate error, a stop predicate in effect. -/
theorem poll_error_with_stop_fails_fast_witness :
    poll (R := ℕ) (fun _ => .error 9) ⟨100, 3600000, 1, 3⟩
        (some fun v => v == 42) (fun _ => 0) = .failure (some 9) 1 :=
  poll_error_with_stop_fails_fast (fun _ => .error 9) ⟨100, 3600000, 1, 3⟩
    (fun v => v == 42) (fun _ => 0) 1 9 (by decide) (by decide)
    (fun i h1 h2 => absurd (Nat.lt_of_lt_of_le h2 h1) (Nat.lt_irrefl i))
    (by decide) (fun j h1 h2 => by simp)

/-- C5: if no stop predicate is supplied, the deadline never fires and
every one of the `retry_limit` attempts raises, `poll` returns
`PollFailure` with `attempts = retry_limit` carrying the error of the last
attempt. -/
theorem poll_all_errors_returns_last_failure (fn : ℕ → Except E R)
    (options : PollingOptions) (clock : ℕ → ℤ) (err : ℕ → E)
    (hret : 1 ≤ options.retry_limit)
    (herrs : ∀ i : ℕ, 1 ≤ i → (i : ℤ) ≤ options.retry_limit → fn i = .error (err i))
    (hchecks : ∀ j : ℕ, 1 ≤ j → (j : ℤ) ≤ 2 * options.retry_limit →
      clock j - clock 0 < options.timeout) :
    poll fn options none clock
      = .failure (some (err options.retry_limit.toNat)) options.retry_limit.toNat := by
  unfold poll pollRun
  have h := pollLoop_all_errors_gen fn err options.timeout options.backoff_factor
    options.retry_limit clock (clock 0) options.retry_limit.toNat
    { attempts := 0, currentInterval := options.interval, lastResult := none,
      lastError := none, clockIdx := 1, waits := [] }
    (by omega)
    (by show ((0 : ℕ) : ℤ) + (options.retry_limit.toNat : ℤ) = options.retry_limit
        omega)
    (by intro i h1 h2
        have h1' : 0 < i := h1
        have h2' : i ≤ 0 + options.retry_limit.toNat := h2
        exact herrs i (by omega) (by omega))
    (by intro j h1 h2
        have h1' : 1 ≤ j := h1
        have h2' : j ≤ 1 + 2 * options.retry_limit.toNat - 1 := h2
        exact hchecks j (by omega) (by omega))
  simpa using h

/-- Witness for `poll_all_errors_returns_last_failure`: two attempts, both
erroring, errors numbered by attempt. -/
theorem poll_all_errors_returns_last_failure_witness :
    poll (R := ℕ) (fun i => .error i) ⟨100, 3600000, 1, 2⟩ none (fun _ => 0)
      = .failure (some 2) 2 :=
  poll_all_errors_returns_last_failure (fun i => .error i) ⟨100, 3600000, 1, 2⟩
    (fun _ => 0) (fun i => i) (by decide) (fun i h1 h2 => rfl)
    (fun j h1 h2 => by simp)

/-- C6: if a stop predicate is supplied, no attempt errors, the deadline
never fires and the predicate rejects every produced value, `poll` returns
`PollSuccess` (not a failure) with `attempts = retry_limit` carrying the
value of the last attempt. -/
theorem poll_predicate_never_satisfied_success (fn : ℕ → Except E R)
    (options : PollingOptions) (p : R → Bool) (clock : ℕ → ℤ) (val : ℕ → R)
    (hret : 1 ≤ options.retry_limit)
    (hvals : ∀ i : ℕ, 1 ≤ i → (i : ℤ) ≤ options.retry_limit →
      fn i = .ok (val i) ∧ p (val i) = false)
    (hchecks : ∀ j : ℕ, 1 ≤ j → (j : ℤ) ≤ 2 * options.retry_limit →
      clock j - clock 0 < options.timeout) :
    poll fn options (some p) clock
      = .success (some (val options.retry_limit.toNat))
          options.retry_limit.toNat := by
  unfold poll pollRun
  have h := pollLoop_never_stop_gen fn val p options.timeout
    options.backoff_factor options.retry_limit clock (clock 0)
    options.retry_limit.toNat
    { attempts := 0, currentInterval := options.interval, lastResult := none,
      lastError := none, clockIdx := 1, waits := [] }
    (by omega)
    (by show ((0 : ℕ) : ℤ) + (options.retry_limit.toNat : ℤ) = options.retry_limit
        omega)
    (by intro i h1 h2
        have h1' : 0 < i := h1
        have h2' : i ≤ 0 + options.retry_limit.toNat := h2
        exact hvals i (by omega) (by omega))
    (by intro j h1 h2
        have h1' : 1 ≤ j := h1
        have h2' : j ≤ 1 + 2 * options.retry_limit.toNat - 1 := h2
        exact hchecks j (by omega) (by omega))
  simpa using h

/-- Witness for `poll_predicate_never_satisfied_success`: three attempts
returning 1, 2, 3 with a predicate looking for 42. -/
theorem poll_predicate_never_satisfied_success_witness :
    poll (E := ℕ) (fun i => .ok i) ⟨100, 3600000, 1, 3⟩
        (some fun _ => false) (fun _ => 0) = .success (some 3) 3 :=
  poll_predicate_never_satisfied_success (fun i => .ok i) ⟨100, 3600000, 1, 3⟩
    (fun _ => false) (fun _ => 0) (fun i => i) (by decide)
    (fun i h1 h2 => ⟨rfl, rfl⟩) (fun j h1 h2 => by simp)

/-- C7: `poll` never propagates an exception to its caller: for every
operation whose failures surface as `.error` outcomes, every options
value, every optional stop predicate and every clock trace, the run
returns a `PollSuccess` or a `PollFailure` value — including on deadline
expiry and retry-budget exhaustion. -/
theorem poll_never_raises (fn : ℕ → Except E R) (options : PollingOptions)
    (stop : Option (R → Bool)) (clock : ℕ → ℤ) :
    (∃ r n, poll fn options stop clock = .success r n) ∨
      (∃ e n, poll fn options stop clock = .failure e n) := by
  rcases poll fn options stop clock with ⟨r, n⟩ | ⟨e, n⟩
  · exact .inl ⟨r, n, rfl⟩
  · exact .inr ⟨e, n, rfl⟩

/-! Claim theorems for `memomize_with_ttl`. -/

/-- C8: a call that finds a stored entry still valid (expiry absent, or
current time strictly before the stored expiry) returns the stored value
and does not invoke the wrapped function, leaving the cache unchanged —
regardless of the call's arguments: two calls with different arguments
`a` and `b` both return the value stored by the earlier computation. -/
theorem memoCall_hit (ttl : Option ℤ) (fn : α → Except E R) (c : Cache R)
    (now : ℤ) (a b : α) (h : cacheValidEntry c now = true) :
    memoCall ttl fn (some c) now a = (.ok c.value, some c, false) ∧
      memoCall ttl fn (some c) now b = (.ok c.value, some c, false) := by
  constructor <;> simp [memoCall, h]

/-- Witness for `memoCall_hit`: entry `{value 7, expiry 100}` at time 50,
queried with arguments 1 and 2. -/
theorem memoCall_hit_witness :
    cacheValidEntry (⟨7, some 100⟩ : Cache ℕ) 50 = true ∧
      (memoCall (some 60) (fun x : ℕ => (.ok (x * x) : Except ℕ ℕ))
          (some ⟨7, some 100⟩) 50 1 = (.ok 7, some ⟨7, some 100⟩, false) ∧
        memoCall (some 60) (fun x : ℕ => (.ok (x * x) : Except ℕ ℕ))
          (some ⟨7, some 100⟩) 50 2 = (.ok 7, some ⟨7, some 100⟩, false)) :=
  ⟨by decide,
    memoCall_hit (some 60) (fun x : ℕ => (.ok (x * x) : Except ℕ ℕ))
      ⟨7, some 100⟩ 50 1 2 (by decide)⟩

/-- C9 (amended): wrapped functions with distinct cache cells — wrappers
produced by distinct `memomize_with_ttl` calls — never read or overwrite
one another's entry: a call through `m1` leaves `m2`'s cell untouched, and
the call's outcome and whether it invokes the underlying function are
unchanged by any rewrite of `m2`'s cell.  (As originally stated — also for
several functions wrapped by the same decorator value — the claim is
false: wrappers from one `memomize_with_ttl(ttl=...)` call all close over
that call's single `nonlocal cache` cell; see the counterexample.) -/
theorem heapCall_cell_isolation (m1 m2 : Memoized α R E) (w : Heap R)
    (now : ℤ) (x : α) (c : Option (Cache R)) (h : m1.cell ≠ m2.cell) :
    (heapCall m1 w now x).2.1 m2.cell = w m2.cell ∧
      (heapCall m1 (w.set m2.cell c) now x).1 = (heapCall m1 w now x).1 ∧
      (heapCall m1 (w.set m2.cell c) now x).2.2 = (heapCall m1 w now x).2.2 := by
  have hcell : (w.set m2.cell c) m1.cell = w m1.cell := by
    simp [Heap.set, h]
  refine ⟨?_, ?_, ?_⟩
  · simp [heapCall, Heap.set, h.symm]
  · simp [heapCall, hcell]
  · simp [heapCall, hcell]

/-- Witness for `heapCall_cell_isolation`: cells 0 and 1. -/
theorem heapCall_cell_isolation_witness :
    ((0 : ℕ) ≠ 1) ∧
      ((heapCall (⟨0, some 60, fun x : ℕ => (.ok x : Except ℕ ℕ)⟩)
          (fun _ => none) 0 5).2.1 1 = (fun _ => none : Heap ℕ) 1 ∧
        (heapCall (⟨0, some 60, fun x : ℕ => (.ok x : Except ℕ ℕ)⟩)
            (Heap.set (fun _ => none) 1 (some ⟨9, none⟩)) 0 5).1
          = (heapCall (⟨0, some 60, fun x : ℕ => (.ok x : Except ℕ ℕ)⟩)
            (fun _ => none) 0 5).1 ∧
        (heapCall (⟨0, some 60, fun x : ℕ => (.ok x : Except ℕ ℕ)⟩)
            (Heap.set (fun _ => none) 1 (some ⟨9, none⟩)) 0 5).2.2
          = (heapCall (⟨0, some 60, fun x : ℕ => (.ok x : Except ℕ ℕ)⟩)
            (fun _ => none) 0 5).2.2) :=
  ⟨by decide,
    heapCall_cell_isolation (⟨0, some 60, fun x : ℕ => (.ok x : Except ℕ ℕ)⟩)
      (⟨1, some 60, fun x : ℕ => (.ok x : Except ℕ ℕ)⟩)
      (fun _ => none) 0 5 (some ⟨9, none⟩) (by decide)⟩

/-- C9 counterexample: the decorator returned by one
`memomize_with_ttl(ttl=10)` call is applied to two functions, `f`
returning 1 and `g` returning 2; both wrappers close over the same cell 0.
Calling wrapped `f` (argument 0, time 0) stores `{value 1, expiry 10}`;
calling wrapped `g` (argument 0, time 1, inside the window) returns `f`'s
cached value 1 — not 2 — and does not invoke `g`: the second wrapped
operation reads the first one's entry. -/
theorem heapCall_shared_decorator_collision :
    (heapCall (⟨0, some 10, fun _ : ℕ => (.ok 1 : Except ℕ ℕ)⟩)
        (fun _ => none) 0 0).2.1 0 = some ⟨1, some 10⟩ ∧
      (heapCall (⟨0, some 10, fun _ : ℕ => (.ok 2 : Except ℕ ℕ)⟩)
          ((heapCall (⟨0, some 10, fun _ : ℕ => (.ok 1 : Except ℕ ℕ)⟩)
            (fun _ => none) 0 0).2.1) 1 0).1 = .ok 1 ∧
      (heapCall (⟨0, some 10, fun _ : ℕ => (.ok 2 : Except ℕ ℕ)⟩)
          ((heapCall (⟨0, some 10, fun _ : ℕ => (.ok 1 : Except ℕ ℕ)⟩)
            (fun _ => none) 0 0).2.1) 1 0).2.2 = false := by
  refine ⟨?_, ?_, ?_⟩ <;> decide

/-- C10: when no valid entry is stored and the wrapped function raises,
the exception propagates (the call's outcome is that error), the cache is
left exactly as it was, and any later call still invokes the wrapped
function again. -/
theorem memoCall_error_propagates (ttl : Option ℤ) (fn : α → Except E R)
    (cache : Option (Cache R)) (now : ℤ) (x : α) (e : E)
    (hinv : ∀ c, cache = some c → cacheValidEntry c now = false)
    (herr : fn x = .error e) :
    memoCall ttl fn cache now x = (.error e, cache, true) ∧
      ∀ (m : ℤ) (y : α), now ≤ m → (memoCall ttl fn cache m y).2.2 = true := by
  have hmono : ∀ (m : ℤ) (c : Cache R), now ≤ m → cache = some c →
      cacheValidEntry c m = false := by
    intro m c hle hc
    have h := hinv c hc
    unfold cacheValidEntry at h ⊢
    match hc2 : c.expiry with
    | none => rw [hc2] at h; exact absurd h (by simp)
    | some t =>
      rw [hc2] at h
      simp only [decide_eq_false_iff_not] at h ⊢
      omega
  constructor
  · rcases hc : cache with _ | c
    · simp [memoCall, herr]
    · have h := hinv c hc
      simp [memoCall, h, herr]
  · intro m y hle
    rcases hc : cache with _ | c
    · rcases hy : fn y <;> simp [memoCall, hy]
    · have h := hmono m c hle hc
      rcases hy : fn y <;> simp [memoCall, h, hy]

/-- Witness for `memoCall_error_propagates`: an expired entry
`{value 5, expiry 10}` at time 20 and an operation raising 3. -/
theorem memoCall_error_propagates_witness :
    (∀ c : Cache ℕ, some (⟨5, some 10⟩ : Cache ℕ) = some c →
        cacheValidEntry c 20 = false) ∧
      (fun _ : ℕ => (.error 3 : Except ℕ ℕ)) 0 = .error 3 ∧
      (memoCall (some 60) (fun _ : ℕ => (.error 3 : Except ℕ ℕ))
          (some ⟨5, some 10⟩) 20 0 = (.error 3, some ⟨5, some 10⟩, true) ∧
        ∀ (m : ℤ) (y : ℕ), 20 ≤ m →
          (memoCall (some 60) (fun _ : ℕ => (.error 3 : Except ℕ ℕ))
            (some ⟨5, some 10⟩) m y).2.2 = true) :=
  ⟨fun c hc => by cases hc; decide, rfl,
    memoCall_error_propagates (some 60) (fun _ : ℕ => (.error 3 : Except ℕ ℕ))
      (some ⟨5, some 10⟩) 20 0 3 (fun c hc => by cases hc; decide) rfl⟩
